import Mathlib

/-
Verification development for the dual-source retrieval/collation pipeline
in agentProcess.py.  The pipeline operations (decomposition, tabular and
text retrieval, context building, orchestration) are embedded shallowly:
external collaborators (the coordination model, the two answering agents,
the text index, pandas parsing and rendering) are oracles supplied through
an environment record, and every pure string manipulation of the source is
translated directly.  Exceptions of the Python code are modelled as
Except.error values of the oracles and of the functions that can raise.
-/

namespace AgentProcess

/-- Characters removed by Python str.strip() with no argument
    (the ASCII whitespace characters). -/
def isPySpace (c : Char) : Bool :=
  c = ' ' || c = '\t' || c = '\n' || c = '\r' || c = '\x0b' || c = '\x0c'

/-- Models Python str.strip(): drop leading and trailing whitespace. -/
def pyStrip (s : String) : String :=
  ⟨((s.data.dropWhile isPySpace).reverse.dropWhile isPySpace).reverse⟩

/-- pat is a literal prefix of the second list. -/
def lEqPfx : List Char → List Char → Bool
  | [], _ => true
  | _ :: _, [] => false
  | p :: ps, c :: cs => p == c && lEqPfx ps cs

/-- Literal substring scan; models the Python membership test pat in s
    (and pandas str.contains on metacharacter-free patterns). -/
def lContains (pat : List Char) : List Char → Bool
  | [] => lEqPfx pat []
  | c :: rest => lEqPfx pat (c :: rest) || lContains pat rest

/-- strContains s pat is true when pat occurs as a literal substring of s. -/
def strContains (s pat : String) : Bool := lContains pat.data s.data

/-- Models Python str.startswith. -/
def pyStartsWith (l pfx : String) : Bool := lEqPfx pfx.data l.data

/-- Worker for pyReplace: left-to-right non-overlapping replacement of the
    non-empty pattern p :: ps by rep, exactly as Python str.replace scans.
    The fuel argument (called with the length of the list, which bounds
    the recursion) keeps the recursion structural. -/
def pyReplaceAux (p : Char) (ps rep : List Char) : Nat → List Char → List Char
  | _, [] => []
  | 0, l => l
  | fuel + 1, c :: rest =>
    if lEqPfx (p :: ps) (c :: rest) then
      rep ++ pyReplaceAux p ps rep fuel (rest.drop ps.length)
    else c :: pyReplaceAux p ps rep fuel rest

/-- Models Python str.replace(pat, rep) for the non-empty patterns used by
    the source (the two sub-query prefixes and the newline). -/
def pyReplace (s pat rep : String) : String :=
  match pat.data with
  | [] => s
  | p :: ps => ⟨pyReplaceAux p ps rep.data s.data.length s.data⟩

/-- Models the Python slice s[:n] (first n characters). -/
def pySlice (s : String) (n : Nat) : String := ⟨s.data.take n⟩

/-- Models Python str.lower (character-wise lowering; the queries and cell
    values exercised here are ASCII). -/
def pyLower (s : String) : String := ⟨s.data.map Char.toLower⟩

/-- Worker for pySplitLines: cur holds the characters of the current field
    in reverse. -/
def splitNlAux (cur : List Char) : List Char → List String
  | [] => [⟨cur.reverse⟩]
  | c :: rest =>
    if c = '\n' then ⟨cur.reverse⟩ :: splitNlAux [] rest else splitNlAux (c :: cur) rest

/-- Models the Python call txt.split of a single newline separator: split
    at every newline, keeping empty fields (the empty text gives one empty
    field). -/
def pySplitLines (s : String) : List String := splitNlAux [] s.data

/-- A separator accepted by the date regex character class. -/
def isDateSep (c : Char) : Bool := c = '-' || c = '/'

/-- Match of the date pattern (four digits, separator, two digits,
    separator, two digits) at the head of the character list; returns the
    matched ten-character window.  This is the regex used by
    retrieve_csv_rows, whose two separators are independent, so mixed
    windows such as 2005-03/11 are matched as well. -/
def dateWindowAt : List Char → Option String
  | c0 :: c1 :: c2 :: c3 :: s1 :: c5 :: c6 :: s2 :: c8 :: c9 :: _ =>
    if c0.isDigit && c1.isDigit && c2.isDigit && c3.isDigit && isDateSep s1 &&
       c5.isDigit && c6.isDigit && isDateSep s2 && c8.isDigit && c9.isDigit then
      some ⟨[c0, c1, c2, c3, s1, c5, c6, s2, c8, c9]⟩
    else none
  | _ => none

/-- Leftmost-match scan of the date pattern, as re.search performs it. -/
def extractDateAux : List Char → Option String
  | [] => none
  | c :: rest =>
    match dateWindowAt (c :: rest) with
    | some s => some s
    | none => extractDateAux rest

/-- The date-like substring extracted from the query by retrieve_csv_rows
    (re.search of the date pattern; none when the query has no match). -/
def extractDate (q : String) : Option String := extractDateAux q.data

/-- One column of a parsed CSV frame, as the two matching modes see it.
    obj is some cells when the pandas dtype of the column is object; a cell
    is none when its value is missing or not a string (the str accessor
    then yields NaN, and contains with na := false gives False).  dateRepr
    is some reprs when pd.to_datetime over the column with coerce succeeds,
    giving the string rendering of each parsed value that the mask is built
    from; it is none when that attempt raises, in which case the code skips
    the column. -/
structure Column where
  obj : Option (List (Option String))
  dateRepr : Option (List String)
deriving DecidableEq, Repr

/-- A parsed CSV frame: column names in order, a row count, and the data of
    each column in column order.  Rows are referred to by their index in
    the original file order. -/
structure DataFrame where
  names : List String
  nrows : Nat
  cols : List Column
deriving DecidableEq, Repr

/-- Outcome of the two parse attempts of one CSV file: the strict
    pd.read_csv call and the lenient fallback that skips bad lines.
    An error value carries the description of the raised exception. -/
structure ParseSpec where
  strict : Except String DataFrame
  lenient : Except String DataFrame
deriving Repr

/-- The nested parse attempt of retrieve_csv_rows: strict read first, and
    on failure the lenient read, whose own failure propagates. -/
def read_csv (p : ParseSpec) : Except String DataFrame :=
  match p.strict with
  | .ok df => .ok df
  | .error _ => p.lenient

/-- Matcher of one pattern character against one subject character for the
    literal-plus-dot regex fragment: a dot matches every character except
    a newline, any other character matches itself.  This is the behaviour
    of the pandas default regex engine only on patterns whose characters
    are ordinary except possibly the dot; other metacharacters are NOT
    interpreted here (see pandasContains). -/
def ldPfx : List Char → List Char → Bool
  | [], _ => true
  | _ :: _, [] => false
  | p :: ps, c :: cs => (if p = '.' then c != '\n' else p == c) && ldPfx ps cs

/-- Search scan of the fragment regex anywhere in the subject (a pattern
    of the fragment has fixed length, so search is a sliding window). -/
def ldContains (pat : List Char) : List Char → Bool
  | [] => ldPfx pat []
  | c :: rest => ldPfx pat (c :: rest) || ldContains pat rest

/-- Models pandas Series.str.contains with its default regex := true ONLY
    on the literal-plus-dot pattern fragment: patterns whose characters
    are all ordinary except possibly the dot wildcard.  On that fragment
    the regex search of the program is exactly this fixed-length window
    scan.  Patterns outside the fragment are not modelled faithfully:
    quantifiers, classes, groups, alternation, anchors and escapes have
    their regex meaning in the program but would be treated literally
    here, and an invalid pattern (for example a lone open parenthesis)
    makes the program raise re.error while this function is total.  Every
    theorem about keyword matching therefore carries a fragment hypothesis
    (litDotPat or litPat) scoping it to the patterns on which this
    embedding agrees with the program. -/
def pandasContains (s pat : String) : Bool := ldContains pat.data s.data

/-- The regex metacharacters of the Python re module (braces written with
    hexadecimal escapes). -/
def regexMeta (c : Char) : Bool :=
  c = '.' || c = '^' || c = '$' || c = '*' || c = '+' || c = '?' ||
  c = '\x7b' || c = '\x7d' || c = '[' || c = ']' || c = '(' || c = ')' ||
  c = '|' || c = '\\'

/-- Patterns of the literal-plus-dot fragment: every character ordinary
    except possibly the dot.  On this fragment pandasContains is a
    faithful model of the pandas matcher. -/
def litDotPat (pat : String) : Bool :=
  pat.data.all (fun c => !regexMeta c || c = '.')

/-- Metacharacter-free patterns, on which the regex search of the program
    is literal substring containment. -/
def litPat (pat : String) : Bool :=
  pat.data.all (fun c => !regexMeta c)

/-- One cell under the keyword-mode mask: str.lower then contains with
    na := false. -/
def cellLowerMatch (kw : String) (cell : Option String) : Bool :=
  match cell with
  | some s => pandasContains (pyLower s) kw
  | none => false

/-- Keyword-mode hit of one column at row r: object columns test their
    cell, non-object columns never contribute. -/
def colCellMatch (kw : String) (r : Nat) (c : Column) : Bool :=
  match c.obj with
  | some cells => cellLowerMatch kw (cells.getD r none)
  | none => false

/-- Keyword mode of retrieve_csv_rows: build one boolean mask per object
    column, OR them together, and keep the rows where the combined mask
    holds.  When the frame has no object column the matched frame stays
    the empty frame. -/
def kwMatchRows (df : DataFrame) (kw : String) : List Nat :=
  let masks := df.cols.filterMap (fun c => c.obj)
  if masks.isEmpty then []
  else (List.range df.nrows).filter (fun r =>
    masks.foldl (fun b cells => b || cellLowerMatch kw (cells.getD r none)) false)

/-- Rows of one date column whose parsed rendering contains the extracted
    date string (the date string holds only digits and separators, so the
    regex search of the source is literal substring containment). -/
def dateColRows (nrows : Nat) (d : String) (reprs : List String) : List Nat :=
  (List.range nrows).filter (fun r => strContains (reprs.getD r "") d)

/-- Date mode of retrieve_csv_rows over the columns in order: skip columns
    whose to_datetime attempt raised, and stop at the first column with a
    non-empty mask; its rows are the match, later columns unexamined. -/
def dateMatchGo (nrows : Nat) (d : String) : List Column → List Nat
  | [] => []
  | c :: rest =>
    match c.dateRepr with
    | none => dateMatchGo nrows d rest
    | some reprs =>
      let rows := dateColRows nrows d reprs
      if rows.isEmpty then dateMatchGo nrows d rest else rows

def dateMatchRows (df : DataFrame) (d : String) : List Nat :=
  dateMatchGo df.nrows d df.cols

/-- Configuration constants set in AgentSystem init. -/
def TOP_K_TEXT : Nat := 6

def CSV_TOP_K : Nat := 100

/-- Row selection for one file: date mode when a date-like substring was
    extracted from the query, keyword mode otherwise. -/
def fileRows (dlike : Option String) (kw : String) (df : DataFrame) : List Nat :=
  match dlike with
  | some d => dateMatchRows df d
  | none => kwMatchRows df kw

/-- Loop of retrieve_csv_rows over the globbed files in order.  A file
    whose read_csv raises makes the whole call raise (the files after it
    are never read); a file with an empty match is left out of the
    mapping; a matching file contributes its frame and at most CSV_TOP_K
    row indices. -/
def rcsvGo (dlike : Option String) (kw : String) :
    List (String × ParseSpec) → Except String (List (String × DataFrame × List Nat))
  | [] => .ok []
  | (fname, p) :: rest =>
    match read_csv p with
    | .error e => .error e
    | .ok df =>
      let rows := fileRows dlike kw df
      match rcsvGo dlike kw rest with
      | .error e => .error e
      | .ok ms => .ok (if rows.isEmpty then ms else (fname, df, rows.take CSV_TOP_K) :: ms)

/-- AgentSystem.retrieve_csv_rows: extract the date-like substring once,
    then scan every CSV file.  The lower-cased query is the keyword. -/
def retrieve_csv_rows (files : List (String × ParseSpec)) (q : String) :
    Except String (List (String × DataFrame × List Nat)) :=
  rcsvGo (extractDate q) (pyLower q) files

/-- A retrieved text document: its text, and the source identifier found in
    its metadata (none when the document has no metadata or no source key,
    in which case build_finance_context falls back to doc_i). -/
structure Document where
  text : String
  src : Option String
deriving DecidableEq, Repr

/-- The external collaborators of the pipeline, as oracles.  ready models
    whether setup has run (self.team_leader is set).  teamRun is the
    coordination capability (decomposition and collation); finSearchK and
    finSearch are the text-index search with and without the top_k
    argument; csvFiles is the globbed CSV directory with the parse outcome
    of each file; finAgentRun and csvAgentRun are the two source-answering
    capabilities; toCsv renders the head of a matched frame of a file as
    pandas to_csv does.  An error value carries the description of the
    raised exception. -/
structure Env where
  ready : Bool
  teamRun : String → Except String String
  finSearchK : String → Nat → Except String (List Document)
  finSearch : String → Except String (List Document)
  csvFiles : List (String × ParseSpec)
  finAgentRun : String → String → Except String String
  csvAgentRun : String → String → Except String String
  toCsv : String → List Nat → String

/-- AgentSystem.retrieve_finance_docs: search with top_k, on failure retry
    the unranked search once, on a second failure return the empty list.
    The function never raises. -/
def retrieve_finance_docs (env : Env) (q : String) : List Document :=
  match env.finSearchK q TOP_K_TEXT with
  | .ok docs => docs
  | .error _ =>
    match env.finSearch q with
    | .ok docs => docs
    | .error _ => []

/-- One block of the finance context: the citation tag from the document
    source (or the doc_i fallback), then the text cut to 800 characters
    with each newline replaced by a space. -/
def docBlock (i : Nat) (d : Document) : String :=
  "[source: " ++ d.src.getD ("doc_" ++ toString i) ++ "] " ++
    pyReplace (pySlice d.text 800) "\n" " "

/-- AgentSystem.build_finance_context: the blocks of the documents in
    order, joined with blank-line separators. -/
def build_finance_context (docs : List Document) : String :=
  String.intercalate "\n\n" (docs.enum.map (fun pr => docBlock pr.1 pr.2))

/-- AgentSystem.build_csv_context: per matched file a labeled block with
    the file name, the comma-joined column names, and the to_csv preview
    of the first ten matched rows. -/
def build_csv_context (env : Env) (ms : List (String × DataFrame × List Nat)) : String :=
  String.intercalate "\n\n" (ms.map (fun e =>
    "[CSV: " ++ e.1 ++ "]\nColumns: " ++ String.intercalate ", " e.2.1.names ++
      "\nPreview:\n" ++ env.toCsv e.1 (e.2.2.take 10)))

/-- The recognized line prefix of the tabular sub-query in the
    decomposition reply (the spec calls this field TABULAR_SUBQUERY). -/
def csvPfx : String := "CSV_SUBQUERY:"

/-- The recognized line prefix of the text sub-query in the decomposition
    reply (the spec calls this field TEXT_SUBQUERY). -/
def finPfx : String := "FINANCE_SUBQUERY:"

/-- Value extracted from a recognized line: every occurrence of the prefix
    removed, then stripped. -/
def extractVal (pfx line : String) : String := pyStrip (pyReplace line pfx "")

/-- Line loop of decompose_query: a line starting with the tabular prefix
    overwrites the tabular field, else a line starting with the text
    prefix overwrites the text field, every other line is ignored. -/
def parseDecomp : List String → String × String → String × String
  | [], acc => acc
  | l :: ls, (cs, fs) =>
    if pyStartsWith l csvPfx then parseDecomp ls (extractVal csvPfx l, fs)
    else if pyStartsWith l finPfx then parseDecomp ls (cs, extractVal finPfx l)
    else parseDecomp ls (cs, fs)

/-- The decomposition instruction template of decompose_query. -/
def decompose_prompt (q : String) : String :=
  "Analyze this query and decompose it into two specific sub-queries:\n        \nOriginal Query: "
    ++ q ++
    "\n\nProvide EXACTLY in this format:\nCSV_SUBQUERY: [specific query for CSV data - focus on dates, prices, volumes, metrics]\nFINANCE_SUBQUERY: [specific query for finance documents - focus on sentiment, analysis, concepts]\n"

/-- AgentSystem.decompose_query: run the coordination capability on the
    template, parse its reply line by line starting from two empty fields;
    any failure of the call degrades to the original query for both
    sub-queries. -/
def decompose_query (env : Env) (q : String) : String × String :=
  match env.teamRun (decompose_prompt q) with
  | .ok txt => parseDecomp (pySplitLines txt) ("", "")
  | .error _ => (q, q)

/-- One observable oracle call of process_query, with its arguments. -/
inductive Call where
  | decomp (prompt : String)
  | finRetrieve (q : String)
  | csvRetrieve (q : String)
  | finAnswer (prompt ctx : String)
  | csvAnswer (prompt ctx : String)
  | collate (prompt : String)
deriving DecidableEq, Repr

/-- The result record of process_query: the success payload with all
    intermediate values, or an error record with its message. -/
inductive QueryResult where
  | ok (query csv_subquery finance_subquery csv_answer finance_answer final_answer : String)
  | err (msg : String)
deriving DecidableEq, Repr

/-- The no-evidence error payload of process_query. -/
def NO_EVIDENCE_ERROR : String := "No information found in knowledge bases."

/-- The error payload returned before setup has completed. -/
def NOT_READY_ERROR : String := "Error: Agent system not initialized. Please run setup first."

/-- An answering prompt: the closed-book instruction, the context block,
    then the sub-query (or its fallback). -/
def answerPrompt (ctx q : String) : String :=
  "Use ONLY the context provided.\n\nCONTEXT:\n" ++ ctx ++ "\n\nQUERY:\n" ++ q

/-- The collation prompt of process_query. -/
def collate_prompt (q ctxt ftxt : String) : String :=
  "You are the Team Leader. Collate the responses from both agents to answer the original query.\n\nOriginal Query: "
    ++ q ++ "\n\nCSV Agent Response:\n" ++ ctxt ++ "\n\nFinance Agent Response:\n" ++ ftxt ++
    "\n\nNow synthesize these into a complete, coherent answer that combines both data and sentiment/analysis insights."

/-- AgentSystem.process_query, instrumented with the list of step calls it
    makes (decomposition, the two retrievals, the two answering calls, the
    collation call).  The try block of the source is the region from the
    retrievals to the collation: an error value of an oracle there is the
    raised exception, and the match on it is the except clause producing
    the error record.  decompose_query sits inside the try but catches its
    own failures, so it contributes no exception. -/
def process_query (env : Env) (q : String) : QueryResult × List Call :=
  if env.ready = false then (.err NOT_READY_ERROR, [])
  else
    let cf := decompose_query env q
    let cs := cf.1
    let fs := cf.2
    let fq := if fs = "" then q else fs
    let cq := if cs = "" then q else cs
    let finance_hits := retrieve_finance_docs env fq
    let log0 := [Call.decomp (decompose_prompt q), Call.finRetrieve fq, Call.csvRetrieve cq]
    match retrieve_csv_rows env.csvFiles cq with
    | .error e => (.err ("Error processing query: " ++ e), log0)
    | .ok csv_hits =>
      if finance_hits.isEmpty && csv_hits.isEmpty then (.err NO_EVIDENCE_ERROR, log0)
      else
        let fctx := build_finance_context finance_hits
        let cctx := build_csv_context env csv_hits
        let fprompt := answerPrompt fctx fq
        let cprompt := answerPrompt cctx cq
        match env.finAgentRun fprompt fctx with
        | .error e =>
          (.err ("Error processing query: " ++ e), log0 ++ [Call.finAnswer fprompt fctx])
        | .ok ftxt =>
          match env.csvAgentRun cprompt cctx with
          | .error e =>
            (.err ("Error processing query: " ++ e),
             log0 ++ [Call.finAnswer fprompt fctx, Call.csvAnswer cprompt cctx])
          | .ok ctxt =>
            let lprompt := collate_prompt q ctxt ftxt
            match env.teamRun lprompt with
            | .error e =>
              (.err ("Error processing query: " ++ e),
               log0 ++ [Call.finAnswer fprompt fctx, Call.csvAnswer cprompt cctx,
                 Call.collate lprompt])
            | .ok ltxt =>
              (.ok q cs fs ctxt ftxt ltxt,
               log0 ++ [Call.finAnswer fprompt fctx, Call.csvAnswer cprompt cctx,
                 Call.collate lprompt])

/-- Decidable equality of Except values with decidable components, used to
    evaluate concrete parse outcomes in witnesses and counterexamples. -/
instance {ε α : Type} [DecidableEq ε] [DecidableEq α] : DecidableEq (Except ε α) := fun a b =>
  match a, b with
  | .ok x, .ok y =>
    if h : x = y then .isTrue (by rw [h]) else .isFalse (fun hh => h (Except.ok.inj hh))
  | .error x, .error y =>
    if h : x = y then .isTrue (by rw [h]) else .isFalse (fun hh => h (Except.error.inj hh))
  | .ok _, .error _ => .isFalse Except.noConfusion
  | .error _, .ok _ => .isFalse Except.noConfusion

/-! ### Helper lemmas: keyword mode -/

theorem foldl_or_any {α : Type} (p : α → Bool) (l : List α) (b : Bool) :
    l.foldl (fun acc x => acc || p x) b = (b || l.any p) := by
  induction l generalizing b with
  | nil => simp
  | cons x xs ih => simp [List.foldl_cons, List.any_cons, ih, Bool.or_assoc]

theorem any_filterMap_obj (cols : List Column) (kw : String) (r : Nat) :
    (cols.filterMap (fun c => c.obj)).any
        (fun cells => cellLowerMatch kw (cells.getD r none)) =
      cols.any (colCellMatch kw r) := by
  induction cols with
  | nil => rfl
  | cons c cols ih =>
    cases hc : c.obj with
    | none =>
      have h1 : colCellMatch kw r c = false := by simp [colCellMatch, hc]
      rw [List.filterMap_cons_none hc, List.any_cons, ih, h1, Bool.false_or]
    | some cells =>
      have h1 : colCellMatch kw r c = cellLowerMatch kw (cells.getD r none) := by
        simp [colCellMatch, hc]
      rw [List.filterMap_cons_some hc, List.any_cons, List.any_cons, ih, h1]

theorem colCellMatch_false_of_filterMap_nil (cols : List Column) (kw : String) (r : Nat)
    (h : cols.filterMap (fun c => c.obj) = []) :
    cols.any (colCellMatch kw r) = false := by
  rw [← any_filterMap_obj, h]
  rfl

/-- Membership characterization of keyword mode: a row is selected exactly
    when it is in range and some object column hits. -/
theorem mem_kwMatchRows (df : DataFrame) (kw : String) (r : Nat) :
    r ∈ kwMatchRows df kw ↔ r < df.nrows ∧ df.cols.any (colCellMatch kw r) = true := by
  unfold kwMatchRows
  by_cases hm : (df.cols.filterMap (fun c => c.obj)).isEmpty
  · rw [List.isEmpty_iff] at hm
    simp only [hm, List.isEmpty_nil, if_pos rfl]
    simp [colCellMatch_false_of_filterMap_nil df.cols kw r hm]
  · simp only [if_neg hm, List.mem_filter, List.mem_range]
    rw [foldl_or_any, Bool.false_or, any_filterMap_obj]

/-! ### Helper lemmas: the regex fragment versus literal containment -/

theorem ldPfx_no_dot (pat : List Char) (h : pat.all (fun c => c != '.') = true) :
    ∀ l, ldPfx pat l = lEqPfx pat l := by
  induction pat with
  | nil => intro l; rfl
  | cons p ps ih =>
    intro l
    simp only [List.all_cons, Bool.and_eq_true, bne_iff_ne] at h
    cases l with
    | nil => rfl
    | cons c cs =>
      simp only [ldPfx, lEqPfx]
      rw [if_neg h.1, ih h.2 cs]

theorem ldContains_no_dot (pat : List Char) (h : pat.all (fun c => c != '.') = true)
    (l : List Char) : ldContains pat l = lContains pat l := by
  induction l with
  | nil => simp [ldContains, lContains, ldPfx_no_dot pat h]
  | cons c cs ih => simp [ldContains, lContains, ldPfx_no_dot pat h, ih]

/-! ### Helper lemmas: date mode -/

/-- Existence of a window of the date regex anywhere in the list (the
    separators of a window are independent, so mixed ones count). -/
def hasMixedDate : List Char → Bool
  | [] => false
  | c :: rest => (dateWindowAt (c :: rest)).isSome || hasMixedDate rest

theorem extractDateAux_isSome (l : List Char) :
    (extractDateAux l).isSome = hasMixedDate l := by
  induction l with
  | nil => rfl
  | cons c rest ih =>
    cases h : dateWindowAt (c :: rest) <;> simp [extractDateAux, hasMixedDate, h, ih]

/-- A column counts as the winning date column when its to_datetime
    attempt succeeded and some row rendering contains the date string. -/
def dateColHit (nrows : Nat) (d : String) (c : Column) : Bool :=
  match c.dateRepr with
  | some reprs => !(dateColRows nrows d reprs).isEmpty
  | none => false

theorem dateMatchGo_eq_find (nrows : Nat) (d : String) (cols : List Column) :
    dateMatchGo nrows d cols =
      match cols.find? (dateColHit nrows d) with
      | some c => dateColRows nrows d (c.dateRepr.getD [])
      | none => [] := by
  induction cols with
  | nil => rfl
  | cons c rest ih =>
    cases hdr : c.dateRepr with
    | none =>
      have hhit : dateColHit nrows d c = false := by simp [dateColHit, hdr]
      rw [List.find?_cons_of_neg _ (by simp [hhit])]
      simpa [dateMatchGo, hdr] using ih
    | some reprs =>
      by_cases hr : (dateColRows nrows d reprs).isEmpty = true
      · have hhit : dateColHit nrows d c = false := by simp [dateColHit, hdr, hr]
        rw [List.find?_cons_of_neg _ (by simp [hhit])]
        rw [show dateMatchGo nrows d (c :: rest) = dateMatchGo nrows d rest by
          simp [dateMatchGo, hdr, hr]]
        exact ih
      · have hie : (dateColRows nrows d reprs).isEmpty = false := by
          simpa using hr
        have hhit : dateColHit nrows d c = true := by simp [dateColHit, hdr, hie]
        rw [List.find?_cons_of_pos _ (by simp [hhit])]
        simp [dateMatchGo, hdr, hie]

/-- Claim-side reading of the mode trigger in C5: a substring matching
    YYYY-MM-DD or YYYY/MM/DD, with the two separators equal. -/
def uniformDateAt : List Char → Bool
  | c0 :: c1 :: c2 :: c3 :: s1 :: c5 :: c6 :: s2 :: c8 :: c9 :: _ =>
    c0.isDigit && c1.isDigit && c2.isDigit && c3.isDigit &&
      c5.isDigit && c6.isDigit && c8.isDigit && c9.isDigit &&
      ((s1 = '-' && s2 = '-') || (s1 = '/' && s2 = '/'))
  | _ => false

def hasUniformDate : List Char → Bool
  | [] => false
  | c :: rest => uniformDateAt (c :: rest) || hasUniformDate rest

/-- uniformDateSubstr q holds when q has a substring of the exact shape
    YYYY-MM-DD or YYYY/MM/DD (uniform separators), the wording of C5. -/
def uniformDateSubstr (q : String) : Bool := hasUniformDate q.data

/-! ### Claim C4 -/

/-- Input on which the pandas regex semantics and the claimed substring
    semantics disagree: a dot in the sub-query. -/
def dfDot : DataFrame := ⟨["c"], 1, [⟨some [some "abc"], none⟩]⟩

/-- C4 counterexample: with sub-query "a.c" (keyword mode, no date-like
    substring) the code includes row 0 of the file, because pandas
    str.contains treats the sub-query as a regex and the dot matches the
    letter b; but "abc" does not contain "a.c" as a substring, so the
    claimed inclusion condition is false while the row is included. -/
theorem keyword_substring_cex :
    extractDate "a.c" = none ∧
    retrieve_csv_rows [("t.csv", ⟨.ok dfDot, .ok dfDot⟩)] "a.c" =
      .ok [("t.csv", dfDot, [0])] ∧
    strContains "abc" "a.c" = false := by
  refine ⟨by decide, by decide, by decide⟩

theorem litPat_no_dot (pat : String) (h : litPat pat = true) :
    pat.data.all (fun c => c != '.') = true := by
  unfold litPat at h
  rw [List.all_eq_true] at h ⊢
  intro c hc
  have hm : regexMeta c = false := by
    have := h c hc
    revert this
    cases regexMeta c <;> simp
  simp only [bne_iff_ne, ne_eq]
  intro hcd
  subst hcd
  exact absurd hm (by decide)

/-- C4 (amended): in keyword mode the sub-query is interpreted as a
    regular-expression pattern (the pandas contains default), not as a
    literal substring.  Both parts are scoped by a hypothesis to the
    patterns on which the embedded matcher is faithful to the program,
    true regex semantics being external to this development: (1) for
    sub-queries of the literal-plus-dot fragment, a row is included iff at
    least one text-typed (object) column cell, lower-cased, contains a
    match of the pattern, the dot matching any character except a newline
    — logical OR across text columns, non-object columns and missing
    cells never contributing; (2) for metacharacter-free sub-queries this
    matching is exactly case-insensitive substring containment, as the
    claim stated.  Sub-queries with other metacharacters have full regex
    semantics in the program, and an invalid pattern makes the contains
    call raise; both are outside the fragment, so the theorem asserts
    nothing about them. -/
theorem keyword_mode_regex_matching :
    (∀ (df : DataFrame) (kw : String) (r : Nat), litDotPat kw = true →
      (r ∈ kwMatchRows df kw ↔ r < df.nrows ∧ df.cols.any (colCellMatch kw r) = true)) ∧
    (∀ (s pat : String), litPat pat = true →
      pandasContains s pat = strContains s pat) := by
  constructor
  · intro df kw r _
    exact mem_kwMatchRows df kw r
  · intro s pat h
    exact ldContains_no_dot pat.data (litPat_no_dot pat h) s.data

/-- C4 witness: the amended theorem applied at concrete inputs.  The
    fragment pattern "a.c" (literal characters plus one dot) selects row 0
    of dfDot through the single object column, and on the
    metacharacter-free pattern "abc" the matcher agrees with substring
    containment. -/
theorem keyword_mode_regex_matching_witness :
    (0 ∈ kwMatchRows dfDot "a.c" ↔
      0 < dfDot.nrows ∧ dfDot.cols.any (colCellMatch "a.c" 0) = true) ∧
    pandasContains "zabcz" "abc" = strContains "zabcz" "abc" :=
  ⟨keyword_mode_regex_matching.1 dfDot "a.c" 0 (by decide),
   keyword_mode_regex_matching.2 "zabcz" "abc" (by decide)⟩

/-! ### Claim C5 -/

/-- C5 counterexample: the sub-query "2005-03/11" contains no substring of
    shape YYYY-MM-DD or YYYY/MM/DD (the separators differ), so the claim
    puts the matcher in keyword mode; but the date regex of the code
    accepts the mixed separators and enters date mode. -/
theorem date_pattern_mixed_sep_cex :
    (extractDate "2005-03/11").isSome = true ∧
    uniformDateSubstr "2005-03/11" = false := by
  exact ⟨by decide, by decide⟩

/-- C5 (amended): date mode is entered exactly when the sub-query contains
    a ten-character window of four digits, a separator, two digits, a
    separator and two digits, where each separator is independently a dash
    or a slash (so mixed windows such as 2005-03/11 also trigger it);
    keyword mode is then not used.  Per file the columns are tried in
    order, columns whose parse attempt raises are skipped, and the first
    column whose parsed values textually contain the extracted date string
    supplies the match rows, the remaining columns unexamined (the find?
    characterization below). -/
theorem date_mode_characterization :
    (∀ q : String, (extractDate q).isSome = hasMixedDate q.data) ∧
    (∀ (df : DataFrame) (d : String),
      dateMatchRows df d =
        match df.cols.find? (dateColHit df.nrows d) with
        | some c => dateColRows df.nrows d (c.dateRepr.getD [])
        | none => []) := by
  constructor
  · intro q; exact extractDateAux_isSome q.data
  · intro df d; exact dateMatchGo_eq_find df.nrows d df.cols

/-! ### Claim C3 -/

/-- Environment whose text searches both fail; every other collaborator is
    inert. -/
def envFail : Env :=
  ⟨true, fun _ => .error "down", fun _ _ => .error "ranked down",
   fun _ => .error "unranked down", [], fun _ _ => .error "down",
   fun _ _ => .error "down", fun _ _ => ""⟩

/-- A one-row frame whose single object column matches the keyword alpha. -/
def dfGood : DataFrame := ⟨["c"], 1, [⟨some [some "alpha one"], none⟩]⟩

/-- A file whose strict parse and lenient parse both raise. -/
def badSpec : ParseSpec := ⟨.error "strict failure", .error "disk error"⟩

/-- A file that parses fine and matches the keyword alpha. -/
def goodSpec : ParseSpec := ⟨.ok dfGood, .ok dfGood⟩

/-- C3 counterexample: when the lenient parse of one file also fails, the
    tabular retrieval raises (returns the exception) instead of recording
    an empty match for that file, and the second file — whose single row
    would have matched the keyword — contributes nothing: its processing
    is aborted. -/
theorem retrieval_failure_raises_cex :
    retrieve_csv_rows [("bad.csv", badSpec), ("good.csv", goodSpec)] "alpha" =
      .error "disk error" ∧
    kwMatchRows dfGood (pyLower "alpha") = [0] := by
  exact ⟨by decide, by decide⟩

/-- C3 (amended): the text source behaves as claimed — if the ranked
    (top-K) search fails the unranked search is retried once, and if that
    also fails the empty list is returned, never an exception.  For the
    tabular source, a file whose strict parse fails is retried once with
    the lenient parser; but if the lenient parse also fails, the exception
    propagates out of the tabular retrieval, aborting the remaining files
    (it is caught only at the orchestrator boundary). -/
theorem retrieval_failure_policy :
    (∀ (env : Env) (q : String) (docs : List Document),
      env.finSearchK q TOP_K_TEXT = .ok docs → retrieve_finance_docs env q = docs) ∧
    (∀ (env : Env) (q e : String) (docs : List Document),
      env.finSearchK q TOP_K_TEXT = .error e → env.finSearch q = .ok docs →
      retrieve_finance_docs env q = docs) ∧
    (∀ (env : Env) (q e1 e2 : String),
      env.finSearchK q TOP_K_TEXT = .error e1 → env.finSearch q = .error e2 →
      retrieve_finance_docs env q = []) ∧
    (∀ (p : ParseSpec) (e : String), p.strict = .error e → read_csv p = p.lenient) ∧
    (∀ (dlike : Option String) (kw fname : String) (p : ParseSpec)
      (rest : List (String × ParseSpec)) (e : String),
      read_csv p = .error e → rcsvGo dlike kw ((fname, p) :: rest) = .error e) := by
  refine ⟨?_, ?_, ?_, ?_, ?_⟩
  · intro env q docs h
    unfold retrieve_finance_docs
    rw [h]
  · intro env q e docs h1 h2
    unfold retrieve_finance_docs
    rw [h1, h2]
  · intro env q e1 e2 h1 h2
    unfold retrieve_finance_docs
    rw [h1, h2]
  · intro p e h
    unfold read_csv
    rw [h]
  · intro dlike kw fname p rest e h
    unfold rcsvGo
    rw [h]

/-- C3 witness: the amended theorem applied at concrete inputs — both
    text searches of envFail fail, so the finance retrieval returns the
    empty list; and a file whose two parses fail makes the loop return the
    lenient exception. -/
theorem retrieval_failure_policy_witness :
    retrieve_finance_docs envFail "hello" = [] ∧
    rcsvGo none "a" [("f.csv", badSpec)] = .error "disk error" :=
  ⟨retrieval_failure_policy.2.2.1 envFail "hello" "ranked down" "unranked down" rfl rfl,
   retrieval_failure_policy.2.2.2.2 none "a" "f.csv" badSpec [] "disk error" rfl⟩

/-! ### Claim C7 -/

theorem pairwise_filter_range (p : Nat → Bool) (n : Nat) :
    List.Pairwise (· < ·) ((List.range n).filter p) :=
  (List.pairwise_lt_range n).sublist (List.filter_sublist (List.range n))

theorem dateMatchGo_pairwise (nrows : Nat) (d : String) (cols : List Column) :
    List.Pairwise (· < ·) (dateMatchGo nrows d cols) := by
  induction cols with
  | nil => exact List.Pairwise.nil
  | cons c rest ih =>
    unfold dateMatchGo
    cases c.dateRepr with
    | none => exact ih
    | some reprs =>
      by_cases hr : (dateColRows nrows d reprs).isEmpty = true
      · simpa [hr] using ih
      · simpa [hr] using pairwise_filter_range _ nrows

theorem fileRows_pairwise (dlike : Option String) (kw : String) (df : DataFrame) :
    List.Pairwise (· < ·) (fileRows dlike kw df) := by
  unfold fileRows
  cases dlike with
  | some d => exact dateMatchGo_pairwise df.nrows d df.cols
  | none =>
    unfold kwMatchRows
    by_cases hm : (df.cols.filterMap (fun c => c.obj)).isEmpty = true
    · simp [hm]
    · simpa [hm] using pairwise_filter_range _ df.nrows

theorem rcsvGo_invariants (dlike : Option String) (kw : String)
    (files : List (String × ParseSpec))
    (ms : List (String × DataFrame × List Nat)) (h : rcsvGo dlike kw files = .ok ms) :
    ∀ x ∈ ms, x.2.2 ≠ [] ∧ x.2.2.length ≤ CSV_TOP_K ∧ List.Pairwise (· < ·) x.2.2 := by
  induction files generalizing ms with
  | nil =>
    unfold rcsvGo at h
    cases h
    intro x hx
    cases hx
  | cons fp rest ih =>
    obtain ⟨fname, p⟩ := fp
    unfold rcsvGo at h
    cases hrc : read_csv p with
    | error e => rw [hrc] at h; exact absurd h (by simp)
    | ok df =>
      rw [hrc] at h
      simp only [] at h
      cases hrec : rcsvGo dlike kw rest with
      | error e => rw [hrec] at h; exact absurd h (by simp)
      | ok ms0 =>
        rw [hrec] at h
        simp only [] at h
        by_cases hrows : (fileRows dlike kw df).isEmpty = true
        · rw [if_pos hrows] at h
          injection h with h2
          subst h2
          exact ih ms0 hrec
        · rw [if_neg hrows] at h
          injection h with h2
          subst h2
          intro x hx
          rcases List.mem_cons.mp hx with hx | hx
          · subst hx
            refine ⟨?_, ?_, ?_⟩
            · intro hnil
              rcases List.take_eq_nil_iff.mp hnil with h0 | h0
              · exact absurd h0 (by decide)
              · rw [List.isEmpty_iff] at hrows
                exact hrows h0
            · exact List.length_take_le _ _
            · exact (fileRows_pairwise dlike kw df).sublist (List.take_sublist _ _)
          · exact ih ms0 hrec x hx

/-- C7: every mapping returned by the tabular retrieval has only non-empty
    row subsets (a file with zero matching rows is absent entirely), each
    subset has at most CSV_TOP_K (100) rows, and each subset lists row
    indices in strictly increasing original file order. -/
theorem tabular_matchset_invariants (files : List (String × ParseSpec)) (q : String)
    (ms : List (String × DataFrame × List Nat)) (h : retrieve_csv_rows files q = .ok ms) :
    ∀ x ∈ ms, x.2.2 ≠ [] ∧ x.2.2.length ≤ CSV_TOP_K ∧ List.Pairwise (· < ·) x.2.2 :=
  rcsvGo_invariants (extractDate q) (pyLower q) files ms h

/-- C7 witness: the theorem applied to a concrete one-file retrieval whose
    single row matches. -/
theorem tabular_matchset_invariants_witness :
    [0] ≠ ([] : List Nat) ∧ ([0] : List Nat).length ≤ CSV_TOP_K ∧
      List.Pairwise (· < ·) ([0] : List Nat) :=
  tabular_matchset_invariants [("good.csv", goodSpec)] "alpha"
    [("good.csv", dfGood, [0])] (by decide) ("good.csv", dfGood, [0]) (by simp)

/-! ### Helper lemmas: decomposer parsing -/

theorem lEqPfx_append_self (l t : List Char) : lEqPfx l (l ++ t) = true := by
  induction l with
  | nil => rfl
  | cons c cs ih => simp [lEqPfx, ih]

theorem lEqPfx_head_excl (p1 p2 : Char) (t1 t2 l : List Char)
    (hne : (p2 == p1) = false) (h : lEqPfx (p1 :: t1) l = true) :
    lEqPfx (p2 :: t2) l = false := by
  cases l with
  | nil => simp [lEqPfx] at h
  | cons c cs =>
    simp only [lEqPfx, Bool.and_eq_true, beq_iff_eq] at h
    obtain ⟨rfl, -⟩ := h
    simp [lEqPfx, hne]

theorem pyStartsWith_csv_not_fin (l : String) (h : pyStartsWith l csvPfx = true) :
    pyStartsWith l finPfx = false := by
  unfold pyStartsWith at h ⊢
  rw [show csvPfx.data = 'C' :: "SV_SUBQUERY:".data from rfl] at h
  rw [show finPfx.data = 'F' :: "INANCE_SUBQUERY:".data from rfl]
  exact lEqPfx_head_excl 'C' 'F' _ _ l.data (by decide) h

theorem pyStartsWith_fin_not_csv (l : String) (h : pyStartsWith l finPfx = true) :
    pyStartsWith l csvPfx = false := by
  unfold pyStartsWith at h ⊢
  rw [show finPfx.data = 'F' :: "INANCE_SUBQUERY:".data from rfl] at h
  rw [show csvPfx.data = 'C' :: "SV_SUBQUERY:".data from rfl]
  exact lEqPfx_head_excl 'F' 'C' _ _ l.data (by decide) h

theorem pyReplaceAux_no_occur (p : Char) (ps rep : List Char) (fuel : Nat)
    (l : List Char) (hfuel : l.length ≤ fuel)
    (h : lContains (p :: ps) l = false) : pyReplaceAux p ps rep fuel l = l := by
  induction l generalizing fuel with
  | nil => cases fuel <;> rfl
  | cons c rest ih =>
    rw [show lContains (p :: ps) (c :: rest) =
      (lEqPfx (p :: ps) (c :: rest) || lContains (p :: ps) rest) from rfl] at h
    rw [Bool.or_eq_false_iff] at h
    cases fuel with
    | zero => simp at hfuel
    | succ f =>
      unfold pyReplaceAux
      rw [if_neg (by simp [h.1])]
      rw [ih f (by simp at hfuel; omega) h.2]

theorem mk_append_data (l : List Char) (s : String) :
    (⟨l⟩ : String) ++ s = ⟨l ++ s.data⟩ := by
  cases s
  rfl

/-- On a line made of the prefix, a space and a clean payload, pyReplace
    removes exactly the leading prefix occurrence. -/
theorem pyReplace_lead (pfx X : String) (p : Char) (ps : List Char)
    (hdata : pfx.data = p :: ps) (hsp : (p == ' ') = false)
    (hno : strContains X pfx = false) :
    pyReplace (pfx ++ " " ++ X) pfx "" = " " ++ X := by
  unfold pyReplace
  rw [hdata]
  simp only []
  have hd : (pfx ++ " " ++ X).data = p :: (ps ++ (' ' :: X.data)) := by
    rw [String.data_append, String.data_append, hdata]
    simp
  rw [hd]
  have hrest : lContains (p :: ps) (' ' :: X.data) = false := by
    rw [show lContains (p :: ps) (' ' :: X.data) =
      (lEqPfx (p :: ps) (' ' :: X.data) || lContains (p :: ps) X.data) from rfl]
    have h1 : lEqPfx (p :: ps) (' ' :: X.data) = false := by
      simp [lEqPfx, hsp]
    have h2 : lContains (p :: ps) X.data = false := by
      unfold strContains at hno
      rw [hdata] at hno
      exact hno
    simp [h1, h2]
  have hlen : (p :: (ps ++ (' ' :: X.data))).length = ps.length + X.data.length + 2 := by
    simp only [List.length_cons, List.length_append]
    omega
  rw [hlen]
  have hpos : lEqPfx (p :: ps) (p :: (ps ++ (' ' :: X.data))) = true := by
    have := lEqPfx_append_self (p :: ps) (' ' :: X.data)
    simpa using this
  rw [show ps.length + X.data.length + 2 = (ps.length + X.data.length + 1) + 1 from rfl]
  unfold pyReplaceAux
  rw [if_pos hpos, List.drop_left]
  rw [pyReplaceAux_no_occur p ps [] (ps.length + X.data.length + 1)
    (' ' :: X.data) (by simp only [List.length_cons]; omega) hrest]
  have hsx : (" " ++ X : String) = ⟨' ' :: X.data⟩ := by
    cases X
    rfl
  rw [hsx]
  rfl

theorem pyStrip_space_append (X : String) : pyStrip (" " ++ X) = pyStrip X := by
  cases X with
  | mk d =>
    show pyStrip ⟨' ' :: d⟩ = pyStrip ⟨d⟩
    unfold pyStrip
    have hsp : isPySpace ' ' = true := by decide
    simp [List.dropWhile_cons, hsp]

/-- Value extraction on a well-formed recognized line: the payload comes
    back unchanged when it is strip-invariant and does not itself contain
    the prefix. -/
theorem extractVal_lead (pfx X : String) (p : Char) (ps : List Char)
    (hdata : pfx.data = p :: ps) (hsp : (p == ' ') = false)
    (hno : strContains X pfx = false) (hstrip : pyStrip X = X) :
    extractVal pfx (pfx ++ " " ++ X) = X := by
  unfold extractVal
  rw [pyReplace_lead pfx X p ps hdata hsp hno, pyStrip_space_append, hstrip]

/-- Fold of the overwrite semantics of the line loop: the accumulated
    value of one field after scanning ls, starting from dflt. -/
def extractLast (pfx dflt : String) : List String → String
  | [] => dflt
  | l :: ls =>
    if pyStartsWith l pfx then extractLast pfx (extractVal pfx l) ls
    else extractLast pfx dflt ls

theorem parseDecomp_eq_extractLast (ls : List String) (cs fs : String) :
    parseDecomp ls (cs, fs) = (extractLast csvPfx cs ls, extractLast finPfx fs ls) := by
  induction ls generalizing cs fs with
  | nil => rfl
  | cons l ls ih =>
    by_cases h1 : pyStartsWith l csvPfx = true
    · have h2 : pyStartsWith l finPfx = false := pyStartsWith_csv_not_fin l h1
      rw [show parseDecomp (l :: ls) (cs, fs) = parseDecomp ls (extractVal csvPfx l, fs) by
          simp [parseDecomp, h1],
        show extractLast csvPfx cs (l :: ls) = extractLast csvPfx (extractVal csvPfx l) ls by
          simp [extractLast, h1],
        show extractLast finPfx fs (l :: ls) = extractLast finPfx fs ls by
          simp [extractLast, h2]]
      exact ih _ _
    · by_cases h2 : pyStartsWith l finPfx = true
      · rw [show parseDecomp (l :: ls) (cs, fs) = parseDecomp ls (cs, extractVal finPfx l) by
            simp [parseDecomp, h1, h2],
          show extractLast csvPfx cs (l :: ls) = extractLast csvPfx cs ls by
            simp [extractLast, h1],
          show extractLast finPfx fs (l :: ls) = extractLast finPfx (extractVal finPfx l) ls by
            simp [extractLast, h2]]
        exact ih _ _
      · rw [show parseDecomp (l :: ls) (cs, fs) = parseDecomp ls (cs, fs) by
            simp [parseDecomp, h1, h2],
          show extractLast csvPfx cs (l :: ls) = extractLast csvPfx cs ls by
            simp [extractLast, h1],
          show extractLast finPfx fs (l :: ls) = extractLast finPfx fs ls by
            simp [extractLast, h2]]
        exact ih _ _

/-- The value of one field after the scan: the extraction from the last
    line carrying the prefix, or the empty string when no line does. -/
def lastFieldValue (pfx : String) (ls : List String) : String :=
  match (ls.filter (fun l => pyStartsWith l pfx)).getLast? with
  | some l => extractVal pfx l
  | none => ""

theorem extractLast_eq_last (pfx : String) (ls : List String) (dflt : String) :
    extractLast pfx dflt ls =
      match (ls.filter (fun l => pyStartsWith l pfx)).getLast? with
      | some l => extractVal pfx l
      | none => dflt := by
  induction ls generalizing dflt with
  | nil => rfl
  | cons l ls ih =>
    by_cases h : pyStartsWith l pfx = true
    · rw [show extractLast pfx dflt (l :: ls) = extractLast pfx (extractVal pfx l) ls by
          simp [extractLast, h],
        ih (extractVal pfx l),
        show (l :: ls).filter (fun s => pyStartsWith s pfx) =
          l :: ls.filter (fun s => pyStartsWith s pfx) by simp [List.filter_cons, h]]
      cases hfl : ls.filter (fun s => pyStartsWith s pfx) with
      | nil => simp
      | cons y ys =>
        rw [List.getLast?_cons_cons]
        cases hg : (y :: ys).getLast? with
        | none => simp at hg
        | some z => rfl
    · rw [show extractLast pfx dflt (l :: ls) = extractLast pfx dflt ls by
          simp [extractLast, h],
        ih dflt,
        show (l :: ls).filter (fun s => pyStartsWith s pfx) =
          ls.filter (fun s => pyStartsWith s pfx) by simp [List.filter_cons, h]]

/-! ### Claim C10 -/

/-- C10: the decomposer parse is last-occurrence-wins for both recognized
    prefixes — on a successful coordination reply, each field is the value
    extracted from the last line carrying its prefix (empty when absent),
    so later occurrences overwrite earlier ones. -/
theorem decomposer_last_occurrence_wins (env : Env) (q txt : String)
    (h : env.teamRun (decompose_prompt q) = .ok txt) :
    decompose_query env q =
      (lastFieldValue csvPfx (pySplitLines txt), lastFieldValue finPfx (pySplitLines txt)) := by
  unfold decompose_query
  rw [h]
  simp only []
  rw [parseDecomp_eq_extractLast]
  unfold lastFieldValue
  rw [extractLast_eq_last, extractLast_eq_last]

/-- Environment whose coordination reply holds two tabular sub-query lines
    and one text sub-query line. -/
def env10 : Env :=
  ⟨true,
   fun _ =>
     .ok "CSV_SUBQUERY: first value\nnoise\nCSV_SUBQUERY: second value\nFINANCE_SUBQUERY: text value",
   fun _ _ => .error "down", fun _ => .error "down", [],
   fun _ _ => .error "down", fun _ _ => .error "down", fun _ _ => ""⟩

/-- C10 witness: with two CSV_SUBQUERY lines in the reply, the returned
    tabular sub-query is the value of the second (last) one. -/
theorem decomposer_last_occurrence_wins_witness :
    decompose_query env10 "orig" = ("second value", "text value") := by
  rw [decomposer_last_occurrence_wins env10 "orig"
    "CSV_SUBQUERY: first value\nnoise\nCSV_SUBQUERY: second value\nFINANCE_SUBQUERY: text value" rfl]
  decide

/-! ### Claim C6 -/

/-- C6: the decomposer parses the reply line by line.  A failing
    coordination call yields the original query for both fields.  A reply
    whose lines carrying the tabular prefix are exactly one line of the
    form prefix-space-X, and likewise one line prefix-space-Y for the text
    prefix — in any order, all other lines ignored — yields exactly
    (X, Y), for payloads that are strip-invariant and do not contain the
    prefix (the code removes every prefix occurrence from the line and
    strips it).  A reply with no line carrying a prefix yields the empty
    string for that field. -/
theorem decomposer_parsing_contract :
    (∀ (env : Env) (q e : String),
      env.teamRun (decompose_prompt q) = .error e → decompose_query env q = (q, q)) ∧
    (∀ (env : Env) (q txt X Y : String),
      env.teamRun (decompose_prompt q) = .ok txt →
      (pySplitLines txt).filter (fun l => pyStartsWith l csvPfx) = [csvPfx ++ " " ++ X] →
      (pySplitLines txt).filter (fun l => pyStartsWith l finPfx) = [finPfx ++ " " ++ Y] →
      pyStrip X = X → strContains X csvPfx = false →
      pyStrip Y = Y → strContains Y finPfx = false →
      decompose_query env q = (X, Y)) ∧
    (∀ (env : Env) (q txt : String),
      env.teamRun (decompose_prompt q) = .ok txt →
      ((pySplitLines txt).filter (fun l => pyStartsWith l csvPfx) = [] →
        (decompose_query env q).1 = "") ∧
      ((pySplitLines txt).filter (fun l => pyStartsWith l finPfx) = [] →
        (decompose_query env q).2 = "")) := by
  refine ⟨?_, ?_, ?_⟩
  · intro env q e h
    unfold decompose_query
    rw [h]
  · intro env q txt X Y h hcf hff hsX hnX hsY hnY
    unfold decompose_query
    rw [h]
    simp only []
    rw [parseDecomp_eq_extractLast, extractLast_eq_last, extractLast_eq_last, hcf, hff]
    simp only [List.getLast?_singleton]
    rw [extractVal_lead csvPfx X 'C' "SV_SUBQUERY:".data rfl (by decide) hnX hsX,
      extractVal_lead finPfx Y 'F' "INANCE_SUBQUERY:".data rfl (by decide) hnY hsY]
  · intro env q txt h
    constructor
    · intro hc
      unfold decompose_query
      rw [h]
      simp only []
      rw [parseDecomp_eq_extractLast]
      simp only []
      rw [extractLast_eq_last, hc]
      rfl
    · intro hf
      unfold decompose_query
      rw [h]
      simp only []
      rw [parseDecomp_eq_extractLast]
      simp only []
      rw [extractLast_eq_last, hf]
      rfl

/-- Environment whose coordination reply carries the two recognized lines
    in the reversed order among unrelated lines. -/
def env6 : Env :=
  ⟨true,
   fun _ =>
     .ok "analysis follows\nFINANCE_SUBQUERY: market sentiment\nmore noise\nCSV_SUBQUERY: close prices",
   fun _ _ => .error "down", fun _ => .error "down", [],
   fun _ _ => .error "down", fun _ _ => .error "down", fun _ _ => ""⟩

/-- C6 witness: the parsing contract applied to the concrete reply of
    env6 — text line before tabular line, unrelated lines ignored. -/
theorem decomposer_parsing_contract_witness :
    decompose_query env6 "orig" = ("close prices", "market sentiment") :=
  decomposer_parsing_contract.2.1 env6 "orig"
    "analysis follows\nFINANCE_SUBQUERY: market sentiment\nmore noise\nCSV_SUBQUERY: close prices"
    "close prices" "market sentiment" rfl (by decide) (by decide) (by decide) (by decide)
    (by decide) (by decide)

/-! ### Claim C9 -/

/-- Spec-side collapse of internal newlines to single spaces. -/
def collapseNewlines (s : String) : String :=
  ⟨s.data.map (fun c => if c = '\n' then ' ' else c)⟩

/-- Spec-side per-document block: the citation tag from the source name
    (doc_i when absent), then the text truncated to 800 characters with
    newlines collapsed. -/
def spec_finance_block (i : Nat) (d : Document) : String :=
  "[source: " ++ d.src.getD ("doc_" ++ toString i) ++ "] " ++
    collapseNewlines ⟨d.text.data.take 800⟩

/-- Spec-side context: the blank-line-separated join of the blocks. -/
def spec_finance_context (docs : List Document) : String :=
  String.intercalate "\n\n" (docs.enum.map (fun pr => spec_finance_block pr.1 pr.2))

theorem pyReplaceAux_newline (fuel : Nat) (l : List Char) (hfuel : l.length ≤ fuel) :
    pyReplaceAux '\n' [] [' '] fuel l =
      l.map (fun c => if c = '\n' then ' ' else c) := by
  induction l generalizing fuel with
  | nil => cases fuel <;> rfl
  | cons c rest ih =>
    cases fuel with
    | zero => simp at hfuel
    | succ f =>
      unfold pyReplaceAux
      by_cases hc : c = '\n'
      · subst hc
        rw [if_pos (by simp [lEqPfx])]
        simp only [List.length_nil, List.drop_zero, List.map_cons, if_pos rfl]
        rw [ih f (by simp at hfuel; omega)]
        rfl
      · have hcond : ¬(lEqPfx ['\n'] (c :: rest) = true) := by
          simp only [lEqPfx, Bool.and_eq_true, beq_iff_eq]
          exact fun h => hc h.1.symm
        rw [if_neg hcond]
        rw [ih f (by simp at hfuel; omega)]
        simp [hc]

theorem pyReplace_newline (s : String) : pyReplace s "\n" " " = collapseNewlines s := by
  unfold pyReplace
  rw [show ("\n" : String).data = ['\n'] from rfl]
  simp only []
  show String.mk (pyReplaceAux '\n' [] [' '] s.data.length s.data) = _
  unfold collapseNewlines
  exact congrArg String.mk (pyReplaceAux_newline s.data.length s.data le_rfl)

theorem docBlock_eq_spec (i : Nat) (d : Document) : docBlock i d = spec_finance_block i d := by
  unfold docBlock spec_finance_block pySlice
  rw [pyReplace_newline]

/-- C9: the finance context builder is a pure function of the document
    sequence (a Lean function of its argument), and its output is exactly
    the blank-line-separated join of per-document blocks — citation tag,
    then the text truncated to 800 characters with each newline collapsed
    to a single space; the empty sequence yields the empty string. -/
theorem finance_context_exact :
    (∀ docs : List Document, build_finance_context docs = spec_finance_context docs) ∧
    build_finance_context [] = "" := by
  constructor
  · intro docs
    unfold build_finance_context spec_finance_context
    exact congrArg (String.intercalate "\n\n")
      (List.map_congr_left (fun pr _ => docBlock_eq_spec pr.1 pr.2))
  · rfl

/-! ### Claim C2 -/

/-- Spec view (sections 4.5 and 7): the description of the exception, if
    any, raised by the wrapped steps (tabular retrieval, the two answering
    calls, the collation call) along the executed path of process_query.
    The text retrieval and the decomposition recover internally and raise
    nothing; the no-evidence return and the uninitialized return are
    ordinary returns, not exceptions. -/
def pathException (env : Env) (q : String) : Option String :=
  if env.ready = false then none
  else
    let cf := decompose_query env q
    let cs := cf.1
    let fs := cf.2
    let fq := if fs = "" then q else fs
    let cq := if cs = "" then q else cs
    let finance_hits := retrieve_finance_docs env fq
    match retrieve_csv_rows env.csvFiles cq with
    | .error e => some e
    | .ok csv_hits =>
      if finance_hits.isEmpty && csv_hits.isEmpty then none
      else
        let fctx := build_finance_context finance_hits
        let cctx := build_csv_context env csv_hits
        let fprompt := answerPrompt fctx fq
        let cprompt := answerPrompt cctx cq
        match env.finAgentRun fprompt fctx with
        | .error e => some e
        | .ok ftxt =>
          match env.csvAgentRun cprompt cctx with
          | .error e => some e
          | .ok ctxt =>
            match env.teamRun (collate_prompt q ctxt ftxt) with
            | .error e => some e
            | .ok _ => none

/-- Case analysis shared by the boundary argument: on every environment
    the executed path either raises some exception description e and the
    result is the corresponding error record, or raises nothing and the
    result is one of the structured returns. -/
theorem process_pathException_cases (env : Env) (q : String) :
    (∃ e, pathException env q = some e ∧
      (process_query env q).1 = .err ("Error processing query: " ++ e)) ∨
    (pathException env q = none ∧
      ((process_query env q).1 = .err NOT_READY_ERROR ∨
       (process_query env q).1 = .err NO_EVIDENCE_ERROR ∨
       ∃ a b c d e f, (process_query env q).1 = .ok a b c d e f)) := by
  unfold pathException process_query
  by_cases hr : env.ready = false
  · rw [if_pos hr, if_pos hr]
    exact Or.inr ⟨by trivial, Or.inl rfl⟩
  · rw [if_neg hr, if_neg hr]
    rcases hdec : decompose_query env q with ⟨cs, fs⟩
    simp only [hdec]
    generalize (if fs = "" then q else fs) = fq
    generalize (if cs = "" then q else cs) = cq
    generalize retrieve_finance_docs env fq = fhits
    generalize build_finance_context fhits = fctx
    generalize answerPrompt fctx fq = fpr
    cases hcsv : retrieve_csv_rows env.csvFiles cq with
    | error e0 =>
      simp only [hcsv]
      exact Or.inl ⟨e0, rfl, rfl⟩
    | ok hits =>
      simp only [hcsv]
      by_cases hg : (fhits.isEmpty && hits.isEmpty) = true
      · rw [if_pos hg, if_pos hg]
        exact Or.inr ⟨by trivial, Or.inr (Or.inl rfl)⟩
      · rw [if_neg hg, if_neg hg]
        generalize build_csv_context env hits = cctx
        generalize answerPrompt cctx cq = cpr
        cases hfa : env.finAgentRun fpr fctx with
        | error e0 =>
          simp only [hfa]
          exact Or.inl ⟨e0, rfl, rfl⟩
        | ok ftxt =>
          simp only [hfa]
          cases hca : env.csvAgentRun cpr cctx with
          | error e0 =>
            simp only [hca]
            exact Or.inl ⟨e0, rfl, rfl⟩
          | ok ctxt =>
            simp only [hca]
            cases hco : env.teamRun (collate_prompt q ctxt ftxt) with
            | error e0 =>
              simp only [hco]
              exact Or.inl ⟨e0, rfl, rfl⟩
            | ok ltxt =>
              simp only [hco]
              exact Or.inr ⟨by trivial, Or.inr (Or.inr ⟨q, cs, fs, ctxt, ftxt, ltxt, rfl⟩)⟩

/-- C2: every exception a wrapped step raises along the executed path is
    caught at the orchestrator boundary and converted into the error
    record built from its description; and when no step raises,
    process_query returns one of the structured results (the
    not-initialized record, the no-evidence record, or the success
    payload).  process_query is a total function into QueryResult, so no
    exception ever reaches the caller. -/
theorem orchestrator_catches_exceptions (env : Env) (q : String) :
    (∀ e, pathException env q = some e →
      (process_query env q).1 = .err ("Error processing query: " ++ e)) ∧
    (pathException env q = none →
      (process_query env q).1 = .err NOT_READY_ERROR ∨
      (process_query env q).1 = .err NO_EVIDENCE_ERROR ∨
      ∃ a b c d e f, (process_query env q).1 = .ok a b c d e f) := by
  rcases process_pathException_cases env q with ⟨e0, he0, hres⟩ | ⟨hnone, hres⟩
  · constructor
    · intro e hpe
      rw [he0] at hpe
      injection hpe with h
      rw [← h]
      exact hres
    · intro hpe
      rw [he0] at hpe
      exact absurd hpe (by simp)
  · constructor
    · intro e hpe
      rw [hnone] at hpe
      exact absurd hpe (by simp)
    · intro _
      exact hres

/-- Environment on which the finance answering call raises: decomposition
    is down (degrading to the original query), the ranked text search
    returns one document so the guard passes, the tabular directory is
    empty, and the finance agent raises with description boom. -/
def envBoom : Env :=
  ⟨true, fun _ => .error "llm down", fun _ _ => .ok [⟨"risk management note", some "a.txt"⟩],
   fun _ => .error "down", [], fun _ _ => .error "boom", fun _ _ => .error "boom2",
   fun _ _ => ""⟩

/-- C2 witness: on envBoom the executed path raises boom at the finance
    answering call, and process_query returns the error record built from
    that description. -/
theorem orchestrator_catches_exceptions_witness :
    (process_query envBoom "question").1 = .err ("Error processing query: " ++ "boom") :=
  (orchestrator_catches_exceptions envBoom "question").1 "boom" (by decide)

/-! ### Claim C1 -/

/-- An answering or collation call, as counted by the guard claim. -/
def isAnswerCall : Call → Bool
  | .finAnswer _ _ => true
  | .csvAnswer _ _ => true
  | .collate _ => true
  | _ => false

/-- C1: when both retrievals complete with no evidence — the text
    retrieval returns the empty sequence and the tabular retrieval returns
    the empty mapping — process_query returns the NO_EVIDENCE_ERROR record
    and its call log holds zero answering and zero collation calls; and
    when the retrievals complete with at least one source returning
    evidence, the finance answering call is issued, so the pipeline
    proceeds to the answering step. -/
theorem no_evidence_guard (env : Env) (q cs fs : String)
    (hready : env.ready = true) (hdec : decompose_query env q = (cs, fs)) :
    (retrieve_finance_docs env (if fs = "" then q else fs) = [] →
      retrieve_csv_rows env.csvFiles (if cs = "" then q else cs) = .ok [] →
      (process_query env q).1 = .err NO_EVIDENCE_ERROR ∧
      (process_query env q).2.countP isAnswerCall = 0) ∧
    (∀ ms, retrieve_csv_rows env.csvFiles (if cs = "" then q else cs) = .ok ms →
      ¬(retrieve_finance_docs env (if fs = "" then q else fs) = [] ∧ ms = []) →
      ∃ pr c, Call.finAnswer pr c ∈ (process_query env q).2) := by
  have hr : ¬(env.ready = false) := by rw [hready]; simp
  constructor
  · intro hfin hcsv
    have hpq : process_query env q =
        (.err NO_EVIDENCE_ERROR,
         [Call.decomp (decompose_prompt q),
          Call.finRetrieve (if fs = "" then q else fs),
          Call.csvRetrieve (if cs = "" then q else cs)]) := by
      unfold process_query
      rw [if_neg hr]
      simp only [hdec]
      rw [hcsv]
      simp only [hfin]
      simp
    rw [hpq]
    exact ⟨rfl, rfl⟩
  · intro ms hcsv hne
    unfold process_query
    rw [if_neg hr]
    simp only [hdec]
    rw [hcsv]
    simp only []
    have hg : ((retrieve_finance_docs env (if fs = "" then q else fs)).isEmpty &&
        ms.isEmpty) = false := by
      rcases not_and_or.mp hne with h | h
      · have h1 : (retrieve_finance_docs env (if fs = "" then q else fs)).isEmpty = false := by
          cases hh : (retrieve_finance_docs env (if fs = "" then q else fs)).isEmpty
          · rfl
          · exact absurd (List.isEmpty_iff.mp hh) h
        rw [h1, Bool.false_and]
      · have h1 : ms.isEmpty = false := by
          cases hh : ms.isEmpty
          · rfl
          · exact absurd (List.isEmpty_iff.mp hh) h
        rw [h1, Bool.and_false]
    rw [if_neg (by simp [hg])]
    split
    · exact ⟨_, _, List.mem_append_right _ (List.mem_cons_self _ _)⟩
    · split
      · exact ⟨_, _, List.mem_append_right _ (List.mem_cons_self _ _)⟩
      · split
        · exact ⟨_, _, List.mem_append_right _ (List.mem_cons_self _ _)⟩
        · exact ⟨_, _, List.mem_append_right _ (List.mem_cons_self _ _)⟩

/-- Environment with no evidence anywhere: the text search returns the
    empty list and the tabular directory is empty. -/
def envEmpty : Env :=
  ⟨true, fun _ => .error "llm down", fun _ _ => .ok [], fun _ => .error "down", [],
   fun _ _ => .error "down", fun _ _ => .error "down", fun _ _ => ""⟩

/-- C1 witness: on envEmpty the guard fires with zero answering and
    collation calls, and on envBoom (one text document retrieved) the
    finance answering call is issued. -/
theorem no_evidence_guard_witness :
    ((process_query envEmpty "w").1 = .err NO_EVIDENCE_ERROR ∧
      (process_query envEmpty "w").2.countP isAnswerCall = 0) ∧
    (∃ pr c, Call.finAnswer pr c ∈ (process_query envBoom "question").2) :=
  ⟨(no_evidence_guard envEmpty "w" "w" "w" rfl rfl).1 (by decide) (by decide),
   (no_evidence_guard envBoom "question" "question" "question" rfl rfl).2 []
     (by decide) (by decide)⟩

/-! ### Claim C8 -/

/-- Every call recorded by process_query uses the fallback sub-queries:
    the retrieval calls carry the sub-query or, when that field is empty,
    the original query, and each answering prompt embeds its context and
    the same fallback value. -/
theorem process_query_log_entries (env : Env) (q cs fs : String)
    (hdec : decompose_query env q = (cs, fs)) :
    ∀ k ∈ (process_query env q).2,
      (∀ s, k = Call.finRetrieve s → s = if fs = "" then q else fs) ∧
      (∀ s, k = Call.csvRetrieve s → s = if cs = "" then q else cs) ∧
      (∀ pr c, k = Call.finAnswer pr c → pr = answerPrompt c (if fs = "" then q else fs)) ∧
      (∀ pr c, k = Call.csvAnswer pr c → pr = answerPrompt c (if cs = "" then q else cs)) := by
  unfold process_query
  by_cases hr : env.ready = false
  · rw [if_pos hr]
    intro k hk
    exact absurd hk (by simp)
  · rw [if_neg hr]
    simp only [hdec]
    generalize (if fs = "" then q else fs) = fq
    generalize (if cs = "" then q else cs) = cq
    generalize retrieve_finance_docs env fq = fhits
    generalize build_finance_context fhits = fctx
    cases hcsv : retrieve_csv_rows env.csvFiles cq with
    | error e0 =>
      simp only [hcsv]
      intro k hk
      simp only [List.mem_cons, List.not_mem_nil, or_false] at hk
      rcases hk with rfl | rfl | rfl <;>
        exact ⟨fun s h => by cases h <;> rfl, fun s h => by cases h <;> rfl,
          fun pr c h => by cases h <;> rfl, fun pr c h => by cases h <;> rfl⟩
    | ok hits =>
      simp only [hcsv]
      generalize build_csv_context env hits = cctx
      by_cases hguard : (fhits.isEmpty && hits.isEmpty) = true
      · rw [if_pos hguard]
        intro k hk
        simp only [List.mem_cons, List.not_mem_nil, or_false] at hk
        rcases hk with rfl | rfl | rfl <;>
          exact ⟨fun s h => by cases h <;> rfl, fun s h => by cases h <;> rfl,
            fun pr c h => by cases h <;> rfl, fun pr c h => by cases h <;> rfl⟩
      · rw [if_neg hguard]
        cases hfa : env.finAgentRun (answerPrompt fctx fq) fctx with
        | error e0 =>
          simp only [hfa]
          intro k hk
          simp only [List.mem_append, List.mem_cons, List.not_mem_nil, or_false] at hk
          rcases hk with (rfl | rfl | rfl) | rfl <;>
            exact ⟨fun s h => by cases h <;> rfl, fun s h => by cases h <;> rfl,
              fun pr c h => by cases h <;> rfl, fun pr c h => by cases h <;> rfl⟩
        | ok ftxt =>
          simp only [hfa]
          cases hca : env.csvAgentRun (answerPrompt cctx cq) cctx with
          | error e0 =>
            simp only [hca]
            intro k hk
            simp only [List.mem_append, List.mem_cons, List.not_mem_nil, or_false] at hk
            rcases hk with (rfl | rfl | rfl) | rfl | rfl <;>
              exact ⟨fun s h => by cases h <;> rfl, fun s h => by cases h <;> rfl,
                fun pr c h => by cases h <;> rfl, fun pr c h => by cases h <;> rfl⟩
          | ok ctxt =>
            simp only [hca]
            cases hco : env.teamRun (collate_prompt q ctxt ftxt) with
            | error e0 =>
              simp only [hco]
              intro k hk
              simp only [List.mem_append, List.mem_cons, List.not_mem_nil, or_false] at hk
              rcases hk with (rfl | rfl | rfl) | rfl | rfl | rfl <;>
                exact ⟨fun s h => by cases h <;> rfl, fun s h => by cases h <;> rfl,
                  fun pr c h => by cases h <;> rfl, fun pr c h => by cases h <;> rfl⟩
            | ok ltxt =>
              simp only [hco]
              intro k hk
              simp only [List.mem_append, List.mem_cons, List.not_mem_nil, or_false] at hk
              rcases hk with (rfl | rfl | rfl) | rfl | rfl | rfl <;>
                exact ⟨fun s h => by cases h <;> rfl, fun s h => by cases h <;> rfl,
                  fun pr c h => by cases h <;> rfl, fun pr c h => by cases h <;> rfl⟩

/-- C8: whenever a sub-query field is empty the value used downstream for
    that source equals the original query — both as the argument of the
    retrieval call of that source and as the query segment of the
    answering prompt of that source — and a non-empty field is used as-is
    (the fallback expression below is the field itself when non-empty, the
    original query otherwise). -/
theorem empty_subquery_fallback (env : Env) (q cs fs : String)
    (hdec : decompose_query env q = (cs, fs)) :
    (∀ s, Call.finRetrieve s ∈ (process_query env q).2 → s = if fs = "" then q else fs) ∧
    (∀ s, Call.csvRetrieve s ∈ (process_query env q).2 → s = if cs = "" then q else cs) ∧
    (∀ pr c, Call.finAnswer pr c ∈ (process_query env q).2 →
      pr = answerPrompt c (if fs = "" then q else fs)) ∧
    (∀ pr c, Call.csvAnswer pr c ∈ (process_query env q).2 →
      pr = answerPrompt c (if cs = "" then q else cs)) := by
  have H := process_query_log_entries env q cs fs hdec
  refine ⟨?_, ?_, ?_, ?_⟩
  · intro s hs
    exact (H _ hs).1 s rfl
  · intro s hs
    exact (H _ hs).2.1 s rfl
  · intro pr c h
    exact (H _ h).2.2.1 pr c rfl
  · intro pr c h
    exact (H _ h).2.2.2 pr c rfl

/-- C8 witness: on envBoom the decomposition degrades to the original
    query (both fields non-empty and equal to it), and the recorded
    finance retrieval call indeed carries that fallback value. -/
theorem empty_subquery_fallback_witness :
    "question" = (if ("question" : String) = "" then "question" else "question") :=
  (empty_subquery_fallback envBoom "question" "question" "question" rfl).1 "question" (by decide)

end AgentProcess
